import Mathlib

/-!
Verification development for `oatpp/web/client/HttpRequestExecutor.cpp`.

The C++ source implements a dual-mode HTTP request executor:
a blocking path (`executeOnce`) and a suspendable coroutine path
(`executeOnceAsync`), sharing a connection-handle lifecycle
(`HttpConnectionHandle`) that tracks validity and an
invalidate-on-destroy flag.

The embedding below is a shallow one: external I/O collaborators
(the request serializer's `send`, the buffered output proxy's `flush`,
and the header reader) are represented by an environment record that
fixes the outcome of each I/O operation, and each execution path is a
pure function from that environment to an outcome record carrying the
result, the final handle state, the number of provider-invalidate
notifications caused, and a trace of the I/O events in order.
-/

set_option autoImplicit false

namespace Oatpp

/-- `oatpp::data::stream::IOMode`. -/
inductive IOMode where
  | BLOCKING
  | ASYNCHRONOUS
deriving DecidableEq

/-- A transport connection (`oatpp::data::stream::IOStream`): the byte
stream the peer will deliver past the read-ahead buffer, plus the
stream I/O modes set by the executor. -/
structure IOStream where
  bytes : List Nat
  inputMode : IOMode := .BLOCKING
  outputMode : IOMode := .BLOCKING
deriving DecidableEq

/-- `setInputStreamIOMode` / `setOutputStreamIOMode` applied together. -/
def IOStream.setIOModes (s : IOStream) (m : IOMode) : IOStream :=
  { s with inputMode := m, outputMode := m }

/-- Header mapping: a list of key/value pairs.  Per the spec the keys
are unique up to letter case and insertion order is irrelevant. -/
abbrev Headers := List (String × String)

/-- Lower-case a single ASCII character (`std::tolower` on ASCII). -/
def lowerChar (c : Char) : Char :=
  if 65 ≤ c.toNat ∧ c.toNat ≤ 90 then Char.ofNat (c.toNat + 32) else c

/-- Case-insensitive string equality, the comparison used by
`oatpp::data::share::StringKeyLabelCI`. -/
def ciStrEq (a b : String) : Bool :=
  a.data.map lowerChar == b.data.map lowerChar

/-- Modelled from the spec: the header mapping's case-insensitive
lookup (`Headers::getAsMemoryLabel` with a case-insensitive key; the
header-map implementation lives outside this translation unit).
Returns the value of the first entry whose key equals `key` up to
letter case. -/
def getHeaderCI (hs : Headers) (key : String) : Option String :=
  (hs.find? fun p => ciStrEq p.1 key).map Prod.snd

/-- `oatpp::web::protocol::http::Header::HOST`. -/
def Header.HOST : String := "Host"

/-- `oatpp::web::protocol::http::Header::CONNECTION`. -/
def Header.CONNECTION : String := "Connection"

/-- `oatpp::web::protocol::http::Header::Value::CONNECTION_KEEP_ALIVE`. -/
def Header.Value.CONNECTION_KEEP_ALIVE : String := "keep-alive"

/-- `oatpp::web::protocol::http::outgoing::Request`; the body is an
abstract reference (`std::shared_ptr<Body>`, possibly null). -/
structure OutgoingRequest where
  method : String
  path : String
  headers : Headers
  body : Option Nat
deriving DecidableEq

/-- `Request::createShared(method, path, headers, body)`. -/
def OutgoingRequest.createShared (method path : String) (headers : Headers)
    (body : Option Nat) : OutgoingRequest :=
  { method := method, path := path, headers := headers, body := body }

/-- Modelled from the spec: `Request::putHeaderIfNotExists_Unsafe`
(implemented in `outgoing/Request.cpp`, outside this translation
unit): add the pair only when no entry with that key (compared
case-insensitively) is present; caller-supplied headers always win. -/
def OutgoingRequest.putHeaderIfNotExists (r : OutgoingRequest)
    (key value : String) : OutgoingRequest :=
  if (getHeaderCI r.headers key).isSome then r
  else { r with headers := r.headers ++ [(key, value)] }

/-- `HttpRequestExecutor::HttpConnectionHandle`: wraps the borrowed
connection, a validity bit and the invalidate-on-destroy flag.  The
provider itself is external; the notifications sent to it are counted
by the operations below. -/
structure HttpConnectionHandle where
  connection : Option IOStream
  valid : Bool := true
  invalidateOnDestroy : Bool := false
deriving DecidableEq

/-- `HttpConnectionHandle::getConnection()`. -/
def HttpConnectionHandle.getConnection (h : HttpConnectionHandle) :
    Option IOStream :=
  h.connection

/-- `HttpConnectionHandle::invalidate()`: if the handle is valid,
notify the provider (counted in the second component) and clear the
validity bit; otherwise do nothing. -/
def HttpConnectionHandle.invalidate (h : HttpConnectionHandle) :
    HttpConnectionHandle × Nat :=
  if h.valid then ({ h with valid := false }, 1) else (h, 0)

/-- `HttpConnectionHandle::setInvalidateOnDestroy(flag)`. -/
def HttpConnectionHandle.setInvalidateOnDestroy (h : HttpConnectionHandle)
    (flag : Bool) : HttpConnectionHandle :=
  { h with invalidateOnDestroy := flag }

/-- `HttpConnectionHandle::~HttpConnectionHandle()`: if the
invalidate-on-destroy flag is set, call `invalidate()`.  Returns
whether `invalidate()` was called and how many provider notifications
the destruction caused. -/
def HttpConnectionHandle.destroy (h : HttpConnectionHandle) : Bool × Nat :=
  if h.invalidateOnDestroy then (true, (h.invalidate).2) else (false, 0)

/-- `invalidate()` applied `n` times in sequence, accumulating the
provider notifications. -/
def HttpConnectionHandle.invalidateTimes (h : HttpConnectionHandle) :
    Nat → HttpConnectionHandle × Nat
  | 0 => (h, 0)
  | n + 1 =>
      let r := h.invalidate
      let rest := r.1.invalidateTimes n
      (rest.1, r.2 + rest.2)

/-- `HttpRequestExecutor::invalidateConnection(handle)`: a null handle
is ignored; a non-null handle is delegated to `invalidate()`. -/
def invalidateConnection (connectionHandle : Option HttpConnectionHandle) :
    Option HttpConnectionHandle × Nat :=
  match connectionHandle with
  | some handle =>
      let r := handle.invalidate
      (some r.1, r.2)
  | none => (connectionHandle, 0)

/-- `invalidateConnection` applied `n` times in sequence. -/
def invalidateConnectionTimes (connectionHandle : Option HttpConnectionHandle) :
    Nat → Option HttpConnectionHandle × Nat
  | 0 => (connectionHandle, 0)
  | n + 1 =>
      let r := invalidateConnection connectionHandle
      let rest := invalidateConnectionTimes r.1 n
      (rest.1, r.2 + rest.2)

/-- `ResponseHeadersReader::Result`: parsed starting line, header
mapping, and the region `[bufferPosStart, bufferPosEnd)` of the
read-ahead buffer still holding unconsumed body bytes. -/
structure ResponseHeadersReaderResult where
  statusCode : Int
  description : String
  headers : Headers
  bufferPosStart : Nat
  bufferPosEnd : Nat
deriving DecidableEq

/-- `oatpp::web::protocol::http::HttpError::Info` as consulted by
`executeOnce`: `status.code` (non-zero on a header-parse failure) and
`ioStatus` (negative on an I/O failure). -/
structure HttpErrorInfo where
  statusCode : Int
  ioStatus : Int
deriving DecidableEq

/-- `oatpp::data::stream::InputStreamBufferedProxy` as constructed by
the executor: the live connection, the read-ahead buffer, the region
bounds, and the can-read-from-buffer flag. -/
structure InputStreamBufferedProxy where
  connection : IOStream
  buffer : List Nat
  posStart : Nat
  posEnd : Nat
  canRead : Bool
deriving DecidableEq

/-- `InputStreamBufferedProxy::createShared`. -/
def InputStreamBufferedProxy.createShared (connection : IOStream)
    (buffer : List Nat) (posStart posEnd : Nat) (canRead : Bool) :
    InputStreamBufferedProxy :=
  { connection := connection, buffer := buffer, posStart := posStart,
    posEnd := posEnd, canRead := canRead }

/-- Modelled from the spec: the byte sequence the composed body stream
yields (the proxy's read loop lives in `StreamBufferedProxy.cpp`,
outside this translation unit).  When the can-read flag is set the
stream first yields the buffer region `[posStart, posEnd)` verbatim,
then continues with the live connection; otherwise it reads directly
from the connection. -/
def InputStreamBufferedProxy.streamBytes (p : InputStreamBufferedProxy) :
    List Nat :=
  (if p.canRead then (p.buffer.drop p.posStart).take (p.posEnd - p.posStart)
   else []) ++ p.connection.bytes

/-- `oatpp::web::protocol::http::incoming::Response` as built by the
executor; the body decoder is an abstract reference. -/
structure Response where
  statusCode : Int
  description : String
  headers : Headers
  bodyStream : InputStreamBufferedProxy
  bodyDecoder : Nat
deriving DecidableEq

/-- `Response::createShared`. -/
def Response.createShared (statusCode : Int) (description : String)
    (headers : Headers) (bodyStream : InputStreamBufferedProxy)
    (bodyDecoder : Nat) : Response :=
  { statusCode := statusCode, description := description, headers := headers,
    bodyStream := bodyStream, bodyDecoder := bodyDecoder }

/-- `RequestExecutionError` error codes raised by the executor. -/
inductive RequestExecutionErrorCode where
  | ERROR_CODE_CANT_CONNECT
  | ERROR_CODE_CANT_PARSE_STARTING_LINE
deriving DecidableEq

/-- The executor: `m_connectionProvider->getProperty("host")` is the
`host` field; the body decoder is an abstract reference. -/
structure HttpRequestExecutor where
  host : String
  bodyDecoder : Nat
deriving DecidableEq

/-- The `Connection`-header test performed in both execution modes:
`result.headers.getAsMemoryLabel<StringKeyLabelCI>(Header::CONNECTION) == "close"`
(case-insensitive key lookup, case-insensitive value comparison). -/
def connectionHeaderIsClose (headers : Headers) : Bool :=
  match getHeaderCI headers Header.CONNECTION with
  | some value => ciStrEq value "close"
  | none => false

/-- The request construction shared by both execution modes:
`Request::createShared` followed by the two `putHeaderIfNotExists_Unsafe`
calls for `Host` (the provider's `host` property) and
`Connection: keep-alive`. -/
def buildOutgoingRequest (host method path : String) (headers : Headers)
    (body : Option Nat) : OutgoingRequest :=
  let request := OutgoingRequest.createShared method path headers body
  let request := request.putHeaderIfNotExists Header.HOST host
  request.putHeaderIfNotExists Header.CONNECTION
    Header.Value.CONNECTION_KEEP_ALIVE

/-- The I/O events of one execution, in order. -/
inductive Event where
  | sendRequest (request : OutgoingRequest)
  | flushOutput
  | readHeaders
deriving DecidableEq

/-- Outcomes of the external I/O operations for one blocking
execution: `request->send` and `upStream.flush()` either succeed or
throw (an error code), and `headerReader.readHeaders` fills the error
info and the result plus the read-ahead buffer contents. -/
structure BlockingIOEnv where
  sendError : Option Nat
  flushError : Option Nat
  headersError : HttpErrorInfo
  headersResult : ResponseHeadersReaderResult
  bufferContents : List Nat
deriving DecidableEq

/-- Failures of the blocking path: the typed `RequestExecutionError`s
thrown by `executeOnce` itself, or an exception from `send`/`flush`
propagating through. -/
inductive BlockingError where
  | requestExecutionError (code : RequestExecutionErrorCode)
  | sendFailure (code : Nat)
  | flushFailure (code : Nat)
deriving DecidableEq

/-- Outcome of one blocking execution: result, final handle state,
number of provider-invalidate notifications caused, and the I/O trace. -/
structure BlockingOutcome where
  result : Except BlockingError Response
  connectionHandle : Option HttpConnectionHandle
  providerInvalidateCalls : Nat
  trace : List Event

/-- `HttpRequestExecutor::executeOnce`, traced over a blocking I/O
environment.  Mirrors the source: null connection → `CANT_CONNECT`;
set blocking modes; build the request with default-header injection;
send; flush; read headers; on `error.status.code != 0` or
`error.ioStatus < 0` invalidate the handle and throw
`CANT_PARSE_STARTING_LINE`; otherwise run the `Connection: close`
check, compose the buffered body stream and return the response. -/
def HttpRequestExecutor.executeOnce (self : HttpRequestExecutor)
    (env : BlockingIOEnv) (method path : String) (headers : Headers)
    (body : Option Nat) (connectionHandle : Option HttpConnectionHandle) :
    BlockingOutcome :=
  match connectionHandle with
  | none =>
      { result := .error (.requestExecutionError .ERROR_CODE_CANT_CONNECT),
        connectionHandle := none, providerInvalidateCalls := 0, trace := [] }
  | some httpCH =>
    match httpCH.getConnection with
    | none =>
        { result := .error (.requestExecutionError .ERROR_CODE_CANT_CONNECT),
          connectionHandle := some httpCH, providerInvalidateCalls := 0,
          trace := [] }
    | some connection0 =>
      let connection := connection0.setIOModes .BLOCKING
      let request := buildOutgoingRequest self.host method path headers body
      match env.sendError with
      | some code =>
          { result := .error (.sendFailure code),
            connectionHandle := some httpCH, providerInvalidateCalls := 0,
            trace := [.sendRequest request] }
      | none =>
        match env.flushError with
        | some code =>
            { result := .error (.flushFailure code),
              connectionHandle := some httpCH, providerInvalidateCalls := 0,
              trace := [.sendRequest request, .flushOutput] }
        | none =>
          if env.headersError.statusCode ≠ 0 then
            let r := httpCH.invalidate
            { result := .error (.requestExecutionError
                .ERROR_CODE_CANT_PARSE_STARTING_LINE),
              connectionHandle := some r.1, providerInvalidateCalls := r.2,
              trace := [.sendRequest request, .flushOutput, .readHeaders] }
          else if env.headersError.ioStatus < 0 then
            let r := httpCH.invalidate
            { result := .error (.requestExecutionError
                .ERROR_CODE_CANT_PARSE_STARTING_LINE),
              connectionHandle := some r.1, providerInvalidateCalls := r.2,
              trace := [.sendRequest request, .flushOutput, .readHeaders] }
          else
            let result := env.headersResult
            let httpCH :=
              if connectionHeaderIsClose result.headers then
                httpCH.setInvalidateOnDestroy true
              else httpCH
            let bodyStream := InputStreamBufferedProxy.createShared connection
              env.bufferContents result.bufferPosStart result.bufferPosEnd
              (result.bufferPosStart ≠ result.bufferPosEnd)
            { result := .ok (Response.createShared result.statusCode
                result.description result.headers bodyStream self.bodyDecoder),
              connectionHandle := some httpCH, providerInvalidateCalls := 0,
              trace := [.sendRequest request, .flushOutput, .readHeaders] }

/-- Outcomes of the external I/O operations for one suspendable
execution: asynchronous send, flush, and header read; the header read
either yields a `ResponseHeadersReader::Result` or an error (the
`oatpp::async::Error` the coroutine framework hands to
`handleError`, identified by a code). -/
structure AsyncIOEnv where
  sendError : Option Nat
  flushError : Option Nat
  headersOutcome : Except Nat ResponseHeadersReaderResult
  bufferContents : List Nat

/-- Failures of the suspendable path: the `RequestExecutionError`
thrown in `act()` before any suspension, or an `oatpp::async::Error`
re-raised by `handleError` verbatim. -/
inductive AsyncFailure where
  | requestExecutionError (code : RequestExecutionErrorCode)
  | raisedError (code : Nat)
deriving DecidableEq

/-- Outcome of one suspendable execution. -/
structure AsyncOutcome where
  result : Except AsyncFailure Response
  connectionHandle : Option HttpConnectionHandle
  providerInvalidateCalls : Nat
  trace : List Event

/-- `ExecutorCoroutine::handleError`: if the connection handle is
non-null, invalidate it; then re-raise the error unchanged.  Returns
the final handle, the provider notifications, and the re-raised
failure. -/
def ExecutorCoroutine.handleError
    (connectionHandle : Option HttpConnectionHandle) (errorCode : Nat) :
    Option HttpConnectionHandle × Nat × AsyncFailure :=
  match connectionHandle with
  | some h =>
      let r := h.invalidate
      (some r.1, r.2, .raisedError errorCode)
  | none => (none, 0, .raisedError errorCode)

/-- `ExecutorCoroutine::onHeadersParsed`: run the `Connection: close`
check on the handle, compose the buffered body stream over the
connection, and build the response. -/
def ExecutorCoroutine.onHeadersParsed (connectionHandle : HttpConnectionHandle)
    (connection : IOStream) (buffer : List Nat) (bodyDecoder : Nat)
    (result : ResponseHeadersReaderResult) :
    Response × HttpConnectionHandle :=
  let connectionHandle :=
    if connectionHeaderIsClose result.headers then
      connectionHandle.setInvalidateOnDestroy true
    else connectionHandle
  let bodyStream := InputStreamBufferedProxy.createShared connection buffer
    result.bufferPosStart result.bufferPosEnd
    (result.bufferPosStart ≠ result.bufferPosEnd)
  (Response.createShared result.statusCode result.description result.headers
    bodyStream bodyDecoder, connectionHandle)

/-- `HttpRequestExecutor::executeOnceAsync` (the `ExecutorCoroutine`),
traced over an asynchronous I/O environment.  `act()` validates the
handle and connection — per the spec the `CANT_CONNECT` throw is a
non-suspending immediate failure (the coroutine framework that routes
it lives outside this translation unit and is modelled from the spec:
no connection was obtained, so the handle is not invalidated) — sets
asynchronous modes, builds the request with the same default-header
injection, then sends, flushes and reads headers, each failure
routing through `ExecutorCoroutine.handleError`; on success
`ExecutorCoroutine.onHeadersParsed` completes the task. -/
def HttpRequestExecutor.executeOnceAsync (self : HttpRequestExecutor)
    (env : AsyncIOEnv) (method path : String) (headers : Headers)
    (body : Option Nat) (connectionHandle : Option HttpConnectionHandle) :
    AsyncOutcome :=
  match connectionHandle with
  | none =>
      { result := .error (.requestExecutionError .ERROR_CODE_CANT_CONNECT),
        connectionHandle := none, providerInvalidateCalls := 0, trace := [] }
  | some httpCH =>
    match httpCH.getConnection with
    | none =>
        { result := .error (.requestExecutionError .ERROR_CODE_CANT_CONNECT),
          connectionHandle := some httpCH, providerInvalidateCalls := 0,
          trace := [] }
    | some connection0 =>
      let connection := connection0.setIOModes .ASYNCHRONOUS
      let request := buildOutgoingRequest self.host method path headers body
      match env.sendError with
      | some code =>
          let r := ExecutorCoroutine.handleError (some httpCH) code
          { result := .error r.2.2, connectionHandle := r.1,
            providerInvalidateCalls := r.2.1,
            trace := [.sendRequest request] }
      | none =>
        match env.flushError with
        | some code =>
            let r := ExecutorCoroutine.handleError (some httpCH) code
            { result := .error r.2.2, connectionHandle := r.1,
              providerInvalidateCalls := r.2.1,
              trace := [.sendRequest request, .flushOutput] }
        | none =>
          match env.headersOutcome with
          | .error code =>
              let r := ExecutorCoroutine.handleError (some httpCH) code
              { result := .error r.2.2, connectionHandle := r.1,
                providerInvalidateCalls := r.2.1,
                trace := [.sendRequest request, .flushOutput, .readHeaders] }
          | .ok result =>
              let r := ExecutorCoroutine.onHeadersParsed httpCH connection
                env.bufferContents self.bodyDecoder result
              { result := .ok r.1, connectionHandle := some r.2,
                providerInvalidateCalls := 0,
                trace := [.sendRequest request, .flushOutput, .readHeaders] }

/-- The number of entries of the header mapping whose key equals `key`
up to letter case (the spec's "exactly once" measure for injected
default headers). -/
def countHeaderCI (hs : Headers) (key : String) : Nat :=
  (hs.filter fun p => ciStrEq p.1 key).length

/-! ### Fixtures for concrete evaluations -/

/-- A handle that was never bound to a connection. -/
def nullHandle : HttpConnectionHandle := { connection := none }

/-- A sample header-read result whose response carries
`CONNECTION: Close` (mixed letter case) and no buffered body bytes. -/
def closeResult : ResponseHeadersReaderResult :=
  { statusCode := 200, description := "OK",
    headers := [("CONNECTION", "Close")], bufferPosStart := 0,
    bufferPosEnd := 0 }

instance {ε α : Type} [DecidableEq ε] [DecidableEq α] :
    DecidableEq (Except ε α) := fun a b =>
  match a, b with
  | .ok a, .ok b =>
      if h : a = b then .isTrue (by rw [h])
      else .isFalse (fun hc => h (Except.ok.inj hc))
  | .error a, .error b =>
      if h : a = b then .isTrue (by rw [h])
      else .isFalse (fun hc => h (Except.error.inj hc))
  | .ok _, .error _ => .isFalse (fun hc => Except.noConfusion hc)
  | .error _, .ok _ => .isFalse (fun hc => Except.noConfusion hc)

/-- A sample executor whose provider reports host `oatpp.io`. -/
def sampleExecutor : HttpRequestExecutor := { host := "oatpp.io", bodyDecoder := 0 }

/-- A sample live connection delivering three further body bytes. -/
def sampleStream : IOStream := { bytes := [10, 20, 30] }

/-- A fresh, valid handle bound to `sampleStream`. -/
def sampleHandle : HttpConnectionHandle := { connection := some sampleStream }

/-- A sample successful header-read result carrying two unconsumed
body bytes in the region `[2, 4)` of the read-ahead buffer. -/
def sampleResult : ResponseHeadersReaderResult :=
  { statusCode := 200, description := "OK",
    headers := [("Content-Length", "5"), ("Connection", "keep-alive")],
    bufferPosStart := 2, bufferPosEnd := 4 }

/-- The header-read error info of a fully successful read. -/
def sampleOkError : HttpErrorInfo := { statusCode := 0, ioStatus := 1 }

/-- A blocking I/O environment in which every operation succeeds. -/
def sampleBlockingEnv : BlockingIOEnv :=
  { sendError := none, flushError := none, headersError := sampleOkError,
    headersResult := sampleResult, bufferContents := [1, 2, 3, 4, 5] }

/-- An asynchronous I/O environment in which every operation succeeds. -/
def sampleAsyncEnv : AsyncIOEnv :=
  { sendError := none, flushError := none,
    headersOutcome := .ok sampleResult, bufferContents := [1, 2, 3, 4, 5] }

/-! ### Helper lemmas -/

theorem invalidate_of_valid (h : HttpConnectionHandle) (hv : h.valid = true) :
    h.invalidate = ({ h with valid := false }, 1) := by
  simp [HttpConnectionHandle.invalidate, hv]

theorem invalidate_of_not_valid (h : HttpConnectionHandle)
    (hv : h.valid = false) : h.invalidate = (h, 0) := by
  simp [HttpConnectionHandle.invalidate, hv]

theorem invalidate_fst_eq (h : HttpConnectionHandle) :
    (h.invalidate).1 = { h with valid := false } := by
  obtain ⟨c, v, f⟩ := h
  cases v <;> simp [HttpConnectionHandle.invalidate]

theorem invalidateTimes_of_not_valid (h : HttpConnectionHandle)
    (hv : h.valid = false) : ∀ n, h.invalidateTimes n = (h, 0) := by
  intro n
  induction n with
  | zero => rfl
  | succ n ih =>
      simp [HttpConnectionHandle.invalidateTimes, invalidate_of_not_valid h hv, ih]

theorem invalidateConnectionTimes_none :
    ∀ n, invalidateConnectionTimes none n = (none, 0) := by
  intro n
  induction n with
  | zero => rfl
  | succ n ih => simp [invalidateConnectionTimes, invalidateConnection, ih]

theorem invalidateConnectionTimes_not_valid (h : HttpConnectionHandle)
    (hv : h.valid = false) :
    ∀ n, invalidateConnectionTimes (some h) n = (some h, 0) := by
  intro n
  induction n with
  | zero => rfl
  | succ n ih =>
      simp [invalidateConnectionTimes, invalidateConnection,
        invalidate_of_not_valid h hv, ih]

/-! ### Claims about the connection-handle lifecycle -/

/-- C5: `invalidate()` is idempotent: the first call on a valid handle
notifies the provider (count 1) and clears `valid`; a call on an
already-invalid handle is a no-op; any sequence of `n ≥ 1` calls on a
valid handle notifies the provider exactly once. -/
theorem invalidate_idempotent (h : HttpConnectionHandle)
    (hv : h.valid = true) :
    h.invalidate = ({ h with valid := false }, 1) ∧
    (∀ h2 : HttpConnectionHandle, h2.valid = false → h2.invalidate = (h2, 0)) ∧
    (∀ n, 1 ≤ n → (h.invalidateTimes n).2 = 1) := by
  refine ⟨invalidate_of_valid h hv, fun h2 hv2 => invalidate_of_not_valid h2 hv2, ?_⟩
  intro n hn
  match n, hn with
  | n + 1, _ =>
      simp [HttpConnectionHandle.invalidateTimes, invalidate_of_valid h hv,
        invalidateTimes_of_not_valid { h with valid := false } rfl]

theorem invalidate_idempotent_witness :
    (sampleHandle.invalidateTimes 3).2 = 1 :=
  (invalidate_idempotent sampleHandle rfl).2.2 3 (by decide)

/-- C8: the destructor calls `invalidate()` exactly when the
invalidate-on-destroy flag is set; destroying a still-valid marked
handle notifies the provider exactly once, and destroying an unmarked
handle notifies it never; a marked handle that was already invalidated
earlier causes no further notification (idempotence), so the provider
receives at most one notification over the handle's lifetime. -/
theorem destroy_invalidates_iff_marked (h : HttpConnectionHandle) :
    (h.destroy).1 = h.invalidateOnDestroy ∧
    (h.invalidateOnDestroy = true → h.valid = true → (h.destroy).2 = 1) ∧
    (h.invalidateOnDestroy = false → (h.destroy).2 = 0) ∧
    (h.invalidateOnDestroy = true → h.valid = false → (h.destroy).2 = 0) ∧
    (h.invalidateTimes 1).2 + ((h.invalidateTimes 1).1.destroy).2 ≤ 1 := by
  obtain ⟨c, v, f⟩ := h
  cases v <;> cases f <;>
    simp [HttpConnectionHandle.destroy, HttpConnectionHandle.invalidate,
      HttpConnectionHandle.invalidateTimes]

theorem destroy_invalidates_iff_marked_witness :
    (({ connection := some sampleStream, valid := true,
        invalidateOnDestroy := true } : HttpConnectionHandle).destroy).2 = 1 :=
  (destroy_invalidates_iff_marked _).2.1 rfl rfl

/-- C10: `invalidateConnection` on a null handle is a no-op (no state
change, no provider notification); on a non-null handle it delegates
to the handle's `invalidate()`; and any number of repeated
`invalidateConnection` calls notifies the provider at most once. -/
theorem invalidateConnection_safe :
    invalidateConnection none = (none, 0) ∧
    (∀ h : HttpConnectionHandle,
      invalidateConnection (some h) = (some (h.invalidate).1, (h.invalidate).2)) ∧
    (∀ (ch : Option HttpConnectionHandle) (n : Nat),
      (invalidateConnectionTimes ch n).2 ≤ 1) := by
  refine ⟨rfl, fun h => rfl, ?_⟩
  intro ch n
  match ch with
  | none => simp [invalidateConnectionTimes_none]
  | some h =>
      match n with
      | 0 => simp [invalidateConnectionTimes]
      | n + 1 =>
          obtain ⟨c, v, f⟩ := h
          cases v
          · simp [invalidateConnectionTimes, invalidateConnection,
              HttpConnectionHandle.invalidate,
              invalidateConnectionTimes_not_valid ⟨c, false, f⟩ rfl]
          · simp [invalidateConnectionTimes, invalidateConnection,
              HttpConnectionHandle.invalidate,
              invalidateConnectionTimes_not_valid ⟨c, false, f⟩ rfl]

/-! ### Claims about the execution paths -/

/-- C1: when the connection handle yields no connection (a null handle
or a handle bound to no connection), both `executeOnce` and
`executeOnceAsync` fail with `CANT_CONNECT`, the provider's invalidate
is never called, no I/O happens, and the handle is left untouched. -/
theorem cantConnect_no_invalidate (x : HttpRequestExecutor)
    (envB : BlockingIOEnv) (envA : AsyncIOEnv) (method path : String)
    (headers : Headers) (body : Option Nat)
    (ch : Option HttpConnectionHandle)
    (hconn : ch.bind HttpConnectionHandle.getConnection = none) :
    x.executeOnce envB method path headers body ch =
      { result := .error (.requestExecutionError .ERROR_CODE_CANT_CONNECT),
        connectionHandle := ch, providerInvalidateCalls := 0, trace := [] } ∧
    x.executeOnceAsync envA method path headers body ch =
      { result := .error (.requestExecutionError .ERROR_CODE_CANT_CONNECT),
        connectionHandle := ch, providerInvalidateCalls := 0, trace := [] } := by
  match ch with
  | none => exact ⟨rfl, rfl⟩
  | some h =>
      have hgc : h.getConnection = none := by simpa using hconn
      constructor
      · simp [HttpRequestExecutor.executeOnce, hgc]
      · simp [HttpRequestExecutor.executeOnceAsync, hgc]

theorem cantConnect_no_invalidate_witness :
    sampleExecutor.executeOnce sampleBlockingEnv "GET" "/" [] none
        (some nullHandle) =
      { result := .error (.requestExecutionError .ERROR_CODE_CANT_CONNECT),
        connectionHandle := some nullHandle, providerInvalidateCalls := 0,
        trace := [] } :=
  (cantConnect_no_invalidate sampleExecutor sampleBlockingEnv sampleAsyncEnv
    "GET" "/" [] none (some nullHandle) rfl).1

/-- C4 counterexample: on a header-read failure the suspendable path
re-raises the header reader's own error (here code 7) after
invalidating the handle; the failure is not
`CANT_PARSE_STARTING_LINE`, contrary to the claim that both execution
modes fail with that error kind. -/
theorem async_read_failure_not_cant_parse :
    (sampleExecutor.executeOnceAsync
      { sendError := none, flushError := none, headersOutcome := .error 7,
        bufferContents := [] } "GET" "/" [] none (some sampleHandle)).result
      = .error (.raisedError 7) ∧
    (sampleExecutor.executeOnceAsync
      { sendError := none, flushError := none, headersOutcome := .error 7,
        bufferContents := [] } "GET" "/" [] none (some sampleHandle)).result
      ≠ .error (.requestExecutionError .ERROR_CODE_CANT_PARSE_STARTING_LINE) := by
  decide

/-- C4 (amended): on a header-parse syntax error or a negative read
status the blocking `executeOnce` invalidates the handle and fails
with `CANT_PARSE_STARTING_LINE`; on a header-read failure the
suspendable `executeOnceAsync` also invalidates the handle but
re-raises the reader's error unchanged instead of mapping it to
`CANT_PARSE_STARTING_LINE`.  In both modes the handle reports invalid
afterward. -/
theorem parse_failure_invalidates (x : HttpRequestExecutor)
    (envB : BlockingIOEnv) (envA : AsyncIOEnv) (method path : String)
    (headers : Headers) (body : Option Nat) (h : HttpConnectionHandle)
    (c : IOStream) (hc : h.connection = some c)
    (hsB : envB.sendError = none) (hfB : envB.flushError = none)
    (herr : envB.headersError.statusCode ≠ 0 ∨ envB.headersError.ioStatus < 0)
    (hsA : envA.sendError = none) (hfA : envA.flushError = none)
    (e : Nat) (hra : envA.headersOutcome = .error e) :
    (x.executeOnce envB method path headers body (some h)).result =
      .error (.requestExecutionError .ERROR_CODE_CANT_PARSE_STARTING_LINE) ∧
    (x.executeOnce envB method path headers body (some h)).connectionHandle =
      some { h with valid := false } ∧
    (x.executeOnceAsync envA method path headers body (some h)).result =
      .error (.raisedError e) ∧
    (x.executeOnceAsync envA method path headers body (some h)).connectionHandle =
      some { h with valid := false } := by
  have hgc : h.getConnection = some c := hc
  have hasync :
      (x.executeOnceAsync envA method path headers body (some h)).result =
        .error (.raisedError e) ∧
      (x.executeOnceAsync envA method path headers body (some h)).connectionHandle =
        some { h with valid := false } := by
    constructor <;>
      simp [HttpRequestExecutor.executeOnceAsync, hgc, hsA, hfA, hra,
        ExecutorCoroutine.handleError, invalidate_fst_eq]
  rcases herr with h1 | h2
  · exact ⟨by simp [HttpRequestExecutor.executeOnce, hgc, hsB, hfB, h1],
      by simp [HttpRequestExecutor.executeOnce, hgc, hsB, hfB, h1,
        invalidate_fst_eq],
      hasync.1, hasync.2⟩
  · by_cases h1 : envB.headersError.statusCode = 0
    · exact ⟨by simp [HttpRequestExecutor.executeOnce, hgc, hsB, hfB, h1, h2],
        by simp [HttpRequestExecutor.executeOnce, hgc, hsB, hfB, h1, h2,
          invalidate_fst_eq],
        hasync.1, hasync.2⟩
    · exact ⟨by simp [HttpRequestExecutor.executeOnce, hgc, hsB, hfB, h1],
        by simp [HttpRequestExecutor.executeOnce, hgc, hsB, hfB, h1,
          invalidate_fst_eq],
        hasync.1, hasync.2⟩

theorem parse_failure_invalidates_witness :
    (sampleExecutor.executeOnce
      { sampleBlockingEnv with headersError := { statusCode := 1, ioStatus := 1 } }
      "GET" "/" [] none (some sampleHandle)).connectionHandle =
      some { sampleHandle with valid := false } :=
  (parse_failure_invalidates sampleExecutor
    { sampleBlockingEnv with headersError := { statusCode := 1, ioStatus := 1 } }
    { sampleAsyncEnv with headersOutcome := .error 5 }
    "GET" "/" [] none sampleHandle sampleStream rfl rfl rfl
    (Or.inl (by decide)) rfl rfl 5 rfl).2.1

/-- C7: in the suspendable path, once the handle has yielded a
connection, every failure is routed through the `handleError` handler,
which invalidates the handle before re-raising the error unchanged
(the provider is notified exactly when the handle was still valid);
the success terminal — the only other exit — performs no invalidation
and leaves the handle's validity unchanged. -/
theorem async_failed_state_invalidates (x : HttpRequestExecutor)
    (envA : AsyncIOEnv) (method path : String) (headers : Headers)
    (body : Option Nat) (h : HttpConnectionHandle) (c : IOStream)
    (hc : h.connection = some c) :
    (∀ f, (x.executeOnceAsync envA method path headers body (some h)).result
        = .error f →
      (∃ e, f = AsyncFailure.raisedError e) ∧
      (x.executeOnceAsync envA method path headers body (some h)).connectionHandle
        = some { h with valid := false } ∧
      (x.executeOnceAsync envA method path headers body (some h)).providerInvalidateCalls
        = (h.invalidate).2) ∧
    (∀ resp, (x.executeOnceAsync envA method path headers body (some h)).result
        = .ok resp →
      (x.executeOnceAsync envA method path headers body (some h)).providerInvalidateCalls
        = 0 ∧
      ∃ h2, (x.executeOnceAsync envA method path headers body (some h)).connectionHandle
          = some h2 ∧ h2.valid = h.valid) := by
  have hgc : h.getConnection = some c := hc
  obtain ⟨se, fe, ho, buf⟩ := envA
  cases se with
  | some code =>
      simp [HttpRequestExecutor.executeOnceAsync, hgc,
        ExecutorCoroutine.handleError, invalidate_fst_eq]
  | none =>
    cases fe with
    | some code =>
        simp [HttpRequestExecutor.executeOnceAsync, hgc,
          ExecutorCoroutine.handleError, invalidate_fst_eq]
    | none =>
      cases ho with
      | error code =>
          simp [HttpRequestExecutor.executeOnceAsync, hgc,
            ExecutorCoroutine.handleError, invalidate_fst_eq]
      | ok r =>
          refine ⟨?_, ?_⟩
          · intro f hf
            exact absurd hf (by simp [HttpRequestExecutor.executeOnceAsync, hgc])
          · intro resp _
            refine ⟨?_, ⟨(if connectionHeaderIsClose r.headers then
                h.setInvalidateOnDestroy true else h), ?_, ?_⟩⟩
            · simp [HttpRequestExecutor.executeOnceAsync, hgc]
            · simp [HttpRequestExecutor.executeOnceAsync, hgc,
                ExecutorCoroutine.onHeadersParsed]
            · cases hcl : connectionHeaderIsClose r.headers <;>
                simp [HttpConnectionHandle.setInvalidateOnDestroy, hcl]

theorem async_failed_state_invalidates_witness :
    (sampleExecutor.executeOnceAsync
      { sampleAsyncEnv with flushError := some 9 } "GET" "/" [] none
      (some sampleHandle)).connectionHandle =
      some { sampleHandle with valid := false } :=
  ((async_failed_state_invalidates sampleExecutor
    { sampleAsyncEnv with flushError := some 9 } "GET" "/" [] none
    sampleHandle sampleStream rfl).1 (.raisedError 9) (by decide)).2.1

/-- C9: in both execution modes, a header read is only ever preceded
by a completed send and a completed flush: whenever `readHeaders`
appears in the I/O trace, the trace is exactly the request send,
then the output flush, then the header read. -/
theorem send_completes_before_read (x : HttpRequestExecutor)
    (envB : BlockingIOEnv) (envA : AsyncIOEnv) (method path : String)
    (headers : Headers) (body : Option Nat)
    (ch : Option HttpConnectionHandle) :
    (Event.readHeaders ∈ (x.executeOnce envB method path headers body ch).trace →
      (x.executeOnce envB method path headers body ch).trace =
        [.sendRequest (buildOutgoingRequest x.host method path headers body),
          .flushOutput, .readHeaders]) ∧
    (Event.readHeaders ∈ (x.executeOnceAsync envA method path headers body ch).trace →
      (x.executeOnceAsync envA method path headers body ch).trace =
        [.sendRequest (buildOutgoingRequest x.host method path headers body),
          .flushOutput, .readHeaders]) := by
  constructor
  · intro hmem
    match ch with
    | none => simp [HttpRequestExecutor.executeOnce] at hmem
    | some h =>
      cases hgc : h.getConnection with
      | none => simp [HttpRequestExecutor.executeOnce, hgc] at hmem
      | some c =>
        obtain ⟨se, fe, he, hr, buf⟩ := envB
        cases se with
        | some code => simp [HttpRequestExecutor.executeOnce, hgc] at hmem
        | none =>
          cases fe with
          | some code => simp [HttpRequestExecutor.executeOnce, hgc] at hmem
          | none =>
            by_cases h1 : he.statusCode = 0 <;> by_cases h2 : he.ioStatus < 0 <;>
              simp [HttpRequestExecutor.executeOnce, hgc, h1, h2]
  · intro hmem
    match ch with
    | none => simp [HttpRequestExecutor.executeOnceAsync] at hmem
    | some h =>
      cases hgc : h.getConnection with
      | none => simp [HttpRequestExecutor.executeOnceAsync, hgc] at hmem
      | some c =>
        obtain ⟨se, fe, ho, buf⟩ := envA
        cases se with
        | some code => simp [HttpRequestExecutor.executeOnceAsync, hgc] at hmem
        | none =>
          cases fe with
          | some code => simp [HttpRequestExecutor.executeOnceAsync, hgc] at hmem
          | none =>
            cases ho with
            | error code => simp [HttpRequestExecutor.executeOnceAsync, hgc]
            | ok r => simp [HttpRequestExecutor.executeOnceAsync, hgc]

theorem send_completes_before_read_witness :
    (sampleExecutor.executeOnce sampleBlockingEnv "GET" "/" [] none
        (some sampleHandle)).trace =
      [.sendRequest (buildOutgoingRequest sampleExecutor.host "GET" "/" [] none),
        .flushOutput, .readHeaders] :=
  (send_completes_before_read sampleExecutor sampleBlockingEnv sampleAsyncEnv
    "GET" "/" [] none (some sampleHandle)).1 (by decide)

/-! ### Header-mapping helper lemmas -/

theorem getHeaderCI_append_left (hs l : Headers) (k : String)
    (hv : (getHeaderCI hs k).isSome) :
    getHeaderCI (hs ++ l) k = getHeaderCI hs k := by
  unfold getHeaderCI at *
  rw [List.find?_append]
  cases hf : hs.find? fun p => ciStrEq p.1 k with
  | none => simp [hf] at hv
  | some p => simp [hf]

theorem getHeaderCI_append_pair_ne (hs : Headers) (k k' v : String)
    (hne : ciStrEq k' k = false) :
    getHeaderCI (hs ++ [(k', v)]) k = getHeaderCI hs k := by
  unfold getHeaderCI
  rw [List.find?_append]
  cases hf : hs.find? fun p => ciStrEq p.1 k with
  | none => simp [hf, List.find?, hne]
  | some p => simp [hf]

theorem getHeaderCI_append_pair_eq (hs : Headers) (k k' v : String)
    (hnone : getHeaderCI hs k = none) (heq : ciStrEq k' k = true) :
    getHeaderCI (hs ++ [(k', v)]) k = some v := by
  unfold getHeaderCI at *
  rw [List.find?_append]
  cases hf : hs.find? fun p => ciStrEq p.1 k with
  | none => simp [List.find?, heq]
  | some p => simp [hf] at hnone

theorem countHeaderCI_append (hs l : Headers) (k : String) :
    countHeaderCI (hs ++ l) k = countHeaderCI hs k + countHeaderCI l k := by
  simp [countHeaderCI, List.filter_append]

theorem countHeaderCI_eq_zero (hs : Headers) (k : String)
    (hv : getHeaderCI hs k = none) : countHeaderCI hs k = 0 := by
  have hf : (hs.find? fun p => ciStrEq p.1 k) = none := by
    cases hf : hs.find? fun p => ciStrEq p.1 k with
    | none => rfl
    | some p => simp [getHeaderCI, hf] at hv
  rw [countHeaderCI, List.length_eq_zero, List.filter_eq_nil_iff]
  intro p hp
  simpa using List.find?_eq_none.mp hf p hp

theorem countHeaderCI_pair (k k' v : String) :
    countHeaderCI [(k', v)] k = if ciStrEq k' k then 1 else 0 := by
  cases h : ciStrEq k' k <;> simp [countHeaderCI, List.filter, h]

theorem countHeaderCI_nil (k : String) : countHeaderCI [] k = 0 := rfl

theorem countHeaderCI_cons (p : String × String) (l : Headers) (k : String) :
    countHeaderCI (p :: l) k =
      (if ciStrEq p.1 k then 1 else 0) + countHeaderCI l k := by
  cases h : ciStrEq p.1 k
  · simp [countHeaderCI, List.filter, h]
  · simp [countHeaderCI, List.filter, h]
    omega

/-! ### Remaining claims -/

/-- C2: on a successful exchange, both execution modes set the
handle's invalidate-on-destroy flag to the result of the
`Connection`-header test — a case-insensitive lookup of `Connection`
whose value is compared with `"close"` up to letter case; a fresh
handle therefore ends marked exactly when the response said `close`,
its validity untouched, and stays reusable otherwise. -/
theorem connection_close_marks_handle (x : HttpRequestExecutor)
    (envB : BlockingIOEnv) (envA : AsyncIOEnv) (method path : String)
    (headers : Headers) (body : Option Nat) (h : HttpConnectionHandle)
    (c : IOStream) (hc : h.connection = some c)
    (hflag : h.invalidateOnDestroy = false)
    (hsB : envB.sendError = none) (hfB : envB.flushError = none)
    (hst : envB.headersError.statusCode = 0)
    (hio : ¬ envB.headersError.ioStatus < 0)
    (hsA : envA.sendError = none) (hfA : envA.flushError = none)
    (resultA : ResponseHeadersReaderResult)
    (hra : envA.headersOutcome = .ok resultA) :
    (x.executeOnce envB method path headers body (some h)).connectionHandle =
      some { h with invalidateOnDestroy :=
        connectionHeaderIsClose envB.headersResult.headers } ∧
    (x.executeOnceAsync envA method path headers body (some h)).connectionHandle =
      some { h with invalidateOnDestroy :=
        connectionHeaderIsClose resultA.headers } ∧
    (∀ (hs : Headers) (v : String), getHeaderCI hs Header.CONNECTION = some v →
      connectionHeaderIsClose hs = ciStrEq v "close") ∧
    (∀ hs : Headers, getHeaderCI hs Header.CONNECTION = none →
      connectionHeaderIsClose hs = false) := by
  have hgc : h.getConnection = some c := hc
  obtain ⟨hcn, hv, hf⟩ := h
  simp only at hflag
  subst hflag
  refine ⟨?_, ?_, ?_, ?_⟩
  · cases hcl : connectionHeaderIsClose envB.headersResult.headers <;>
      simp [HttpRequestExecutor.executeOnce, hgc, hsB, hfB, hst, hio, hcl,
        HttpConnectionHandle.setInvalidateOnDestroy]
  · cases hcl : connectionHeaderIsClose resultA.headers <;>
      simp [HttpRequestExecutor.executeOnceAsync, hgc, hsA, hfA, hra, hcl,
        ExecutorCoroutine.onHeadersParsed,
        HttpConnectionHandle.setInvalidateOnDestroy]
  · intro hs v hv2
    simp [connectionHeaderIsClose, hv2]
  · intro hs hv2
    simp [connectionHeaderIsClose, hv2]

theorem connection_close_marks_handle_witness :
    (sampleExecutor.executeOnce
        { sampleBlockingEnv with headersResult := closeResult } "GET" "/" []
        none (some sampleHandle)).connectionHandle =
      some { sampleHandle with invalidateOnDestroy := true } :=
  (connection_close_marks_handle sampleExecutor
    { sampleBlockingEnv with headersResult := closeResult } sampleAsyncEnv
    "GET" "/" [] none sampleHandle sampleStream rfl rfl rfl rfl rfl
    (by decide) rfl rfl sampleResult rfl).1

/-- C3: on a successful exchange the body stream returned by either
mode yields first the read-ahead buffer region
`[bufferPosStart, bufferPosEnd)` verbatim and then the live
connection's bytes when the region is non-empty, and yields the
connection's bytes directly when the region is empty. -/
theorem body_stream_yields_buffered_bytes_first (x : HttpRequestExecutor)
    (envB : BlockingIOEnv) (envA : AsyncIOEnv) (method path : String)
    (headers : Headers) (body : Option Nat) (h : HttpConnectionHandle)
    (c : IOStream) (hc : h.connection = some c)
    (hsB : envB.sendError = none) (hfB : envB.flushError = none)
    (hst : envB.headersError.statusCode = 0)
    (hio : ¬ envB.headersError.ioStatus < 0)
    (hsA : envA.sendError = none) (hfA : envA.flushError = none)
    (resultA : ResponseHeadersReaderResult)
    (hra : envA.headersOutcome = .ok resultA) :
    (∃ respB, (x.executeOnce envB method path headers body (some h)).result
        = .ok respB ∧
      (envB.headersResult.bufferPosStart ≠ envB.headersResult.bufferPosEnd →
        respB.bodyStream.streamBytes =
          (envB.bufferContents.drop envB.headersResult.bufferPosStart).take
            (envB.headersResult.bufferPosEnd - envB.headersResult.bufferPosStart)
          ++ c.bytes) ∧
      (envB.headersResult.bufferPosStart = envB.headersResult.bufferPosEnd →
        respB.bodyStream.streamBytes = c.bytes)) ∧
    (∃ respA, (x.executeOnceAsync envA method path headers body (some h)).result
        = .ok respA ∧
      (resultA.bufferPosStart ≠ resultA.bufferPosEnd →
        respA.bodyStream.streamBytes =
          (envA.bufferContents.drop resultA.bufferPosStart).take
            (resultA.bufferPosEnd - resultA.bufferPosStart) ++ c.bytes) ∧
      (resultA.bufferPosStart = resultA.bufferPosEnd →
        respA.bodyStream.streamBytes = c.bytes)) := by
  have hgc : h.getConnection = some c := hc
  constructor
  · refine ⟨Response.createShared envB.headersResult.statusCode
      envB.headersResult.description envB.headersResult.headers
      (InputStreamBufferedProxy.createShared (c.setIOModes .BLOCKING)
        envB.bufferContents envB.headersResult.bufferPosStart
        envB.headersResult.bufferPosEnd
        (envB.headersResult.bufferPosStart ≠ envB.headersResult.bufferPosEnd))
      x.bodyDecoder, ?_, ?_, ?_⟩
    · simp [HttpRequestExecutor.executeOnce, hgc, hsB, hfB, hst, hio]
    · intro hne
      simp [Response.createShared, InputStreamBufferedProxy.streamBytes,
        InputStreamBufferedProxy.createShared, IOStream.setIOModes, hne]
    · intro heq
      simp [Response.createShared, InputStreamBufferedProxy.streamBytes,
        InputStreamBufferedProxy.createShared, IOStream.setIOModes, heq]
  · refine ⟨Response.createShared resultA.statusCode resultA.description
      resultA.headers
      (InputStreamBufferedProxy.createShared (c.setIOModes .ASYNCHRONOUS)
        envA.bufferContents resultA.bufferPosStart resultA.bufferPosEnd
        (resultA.bufferPosStart ≠ resultA.bufferPosEnd))
      x.bodyDecoder, ?_, ?_, ?_⟩
    · simp [HttpRequestExecutor.executeOnceAsync, hgc, hsA, hfA, hra,
        ExecutorCoroutine.onHeadersParsed]
    · intro hne
      simp [Response.createShared, InputStreamBufferedProxy.streamBytes,
        InputStreamBufferedProxy.createShared, IOStream.setIOModes, hne]
    · intro heq
      simp [Response.createShared, InputStreamBufferedProxy.streamBytes,
        InputStreamBufferedProxy.createShared, IOStream.setIOModes, heq]

theorem body_stream_yields_buffered_bytes_first_witness :
    (3 : Nat) ≠ 5 ∧
    ∃ respB, (sampleExecutor.executeOnce
      { sampleBlockingEnv with headersResult :=
          { sampleResult with bufferPosStart := 3, bufferPosEnd := 5 } }
      "GET" "/" [] none (some sampleHandle)).result = .ok respB ∧
      respB.bodyStream.streamBytes = [4, 5] ++ sampleStream.bytes := by
  refine ⟨by decide, ?_⟩
  obtain ⟨⟨respB, hok, hne, _⟩, _⟩ :=
    body_stream_yields_buffered_bytes_first sampleExecutor
      { sampleBlockingEnv with headersResult :=
          { sampleResult with bufferPosStart := 3, bufferPosEnd := 5 } }
      sampleAsyncEnv "GET" "/" [] none sampleHandle sampleStream rfl rfl rfl
      rfl (by decide) rfl rfl sampleResult rfl
  exact ⟨respB, hok, by simpa using hne (by decide)⟩

/-- C6: the request construction shared by both execution modes keeps
a caller-supplied `Host` (resp. `Connection`) header unchanged, and
when it is absent injects exactly one `Host` header carrying the
provider's `host` property (resp. exactly one `Connection: keep-alive`
header); every request either mode sends is exactly this
construction. -/
theorem default_header_injection (x : HttpRequestExecutor)
    (envB : BlockingIOEnv) (envA : AsyncIOEnv) (method path : String)
    (headers : Headers) (body : Option Nat)
    (ch : Option HttpConnectionHandle) :
    (∀ v, getHeaderCI headers Header.HOST = some v →
      getHeaderCI (buildOutgoingRequest x.host method path headers body).headers
        Header.HOST = some v) ∧
    (getHeaderCI headers Header.HOST = none →
      countHeaderCI (buildOutgoingRequest x.host method path headers body).headers
        Header.HOST = 1 ∧
      getHeaderCI (buildOutgoingRequest x.host method path headers body).headers
        Header.HOST = some x.host) ∧
    (∀ v, getHeaderCI headers Header.CONNECTION = some v →
      getHeaderCI (buildOutgoingRequest x.host method path headers body).headers
        Header.CONNECTION = some v) ∧
    (getHeaderCI headers Header.CONNECTION = none →
      countHeaderCI (buildOutgoingRequest x.host method path headers body).headers
        Header.CONNECTION = 1 ∧
      getHeaderCI (buildOutgoingRequest x.host method path headers body).headers
        Header.CONNECTION = some Header.Value.CONNECTION_KEEP_ALIVE) ∧
    (∀ r, Event.sendRequest r ∈
        (x.executeOnce envB method path headers body ch).trace →
      r = buildOutgoingRequest x.host method path headers body) ∧
    (∀ r, Event.sendRequest r ∈
        (x.executeOnceAsync envA method path headers body ch).trace →
      r = buildOutgoingRequest x.host method path headers body) := by
  have hHC : ciStrEq Header.HOST Header.CONNECTION = false := by decide
  have hCH : ciStrEq Header.CONNECTION Header.HOST = false := by decide
  have hHH : ciStrEq Header.HOST Header.HOST = true := by decide
  have hCC : ciStrEq Header.CONNECTION Header.CONNECTION = true := by decide
  have hchar : (buildOutgoingRequest x.host method path headers body).headers =
      (if (getHeaderCI headers Header.HOST).isSome then headers
       else headers ++ [(Header.HOST, x.host)]) ++
      (if (getHeaderCI headers Header.CONNECTION).isSome then []
       else [(Header.CONNECTION, Header.Value.CONNECTION_KEEP_ALIVE)]) := by
    rcases hH : getHeaderCI headers Header.HOST with _ | v <;>
      rcases hC : getHeaderCI headers Header.CONNECTION with _ | w <;>
        simp [buildOutgoingRequest, OutgoingRequest.putHeaderIfNotExists,
          OutgoingRequest.createShared, hH, hC,
          getHeaderCI_append_pair_ne headers Header.CONNECTION Header.HOST
            x.host hHC]
  refine ⟨?_, ?_, ?_, ?_, ?_, ?_⟩
  · intro v hv
    rw [hchar]
    simp only [hv, Option.isSome_some, if_true]
    rcases hC : getHeaderCI headers Header.CONNECTION with _ | w
    · simp only [hC, Option.isSome_none, Bool.false_eq_true, if_false]
      rw [getHeaderCI_append_pair_ne headers Header.HOST Header.CONNECTION
        Header.Value.CONNECTION_KEEP_ALIVE hCH]
      exact hv
    · simpa [hC] using hv
  · intro hv
    rw [hchar]
    simp only [hv, Option.isSome_none, Bool.false_eq_true, if_false]
    have hmid : getHeaderCI (headers ++ [(Header.HOST, x.host)]) Header.HOST
        = some x.host :=
      getHeaderCI_append_pair_eq headers Header.HOST Header.HOST x.host hv hHH
    constructor
    · rcases hC : getHeaderCI headers Header.CONNECTION with _ | w <;>
        simp [hC, countHeaderCI_append, countHeaderCI_pair, countHeaderCI_cons,
          countHeaderCI_nil, hHH, hCH,
          countHeaderCI_eq_zero headers Header.HOST hv]
    · rcases hC : getHeaderCI headers Header.CONNECTION with _ | w
      · simp only [hC, Option.isSome_none, Bool.false_eq_true, if_false]
        rw [getHeaderCI_append_pair_ne _ Header.HOST Header.CONNECTION
          Header.Value.CONNECTION_KEEP_ALIVE hCH]
        exact hmid
      · simpa [hC] using hmid
  · intro v hv
    rw [hchar]
    simp only [hv, Option.isSome_some, if_true, List.append_nil]
    rcases hH : getHeaderCI headers Header.HOST with _ | w
    · simp only [hH, Option.isSome_none, Bool.false_eq_true, if_false]
      rw [getHeaderCI_append_pair_ne headers Header.CONNECTION Header.HOST
        x.host hHC]
      exact hv
    · simpa [hH] using hv
  · intro hv
    rw [hchar]
    simp only [hv, Option.isSome_none, Bool.false_eq_true, if_false]
    have hpart : ∀ part1 : Headers, getHeaderCI part1 Header.CONNECTION = none →
        countHeaderCI part1 Header.CONNECTION = 0 →
        getHeaderCI (part1 ++
            [(Header.CONNECTION, Header.Value.CONNECTION_KEEP_ALIVE)])
          Header.CONNECTION = some Header.Value.CONNECTION_KEEP_ALIVE ∧
        countHeaderCI (part1 ++
            [(Header.CONNECTION, Header.Value.CONNECTION_KEEP_ALIVE)])
          Header.CONNECTION = 1 := by
      intro part1 h1 h2
      exact ⟨getHeaderCI_append_pair_eq part1 Header.CONNECTION
          Header.CONNECTION Header.Value.CONNECTION_KEEP_ALIVE h1 hCC,
        by simp [countHeaderCI_append, countHeaderCI_pair, hCC, h2]⟩
    rcases hH : getHeaderCI headers Header.HOST with _ | w
    · simp only [hH, Option.isSome_none, Bool.false_eq_true, if_false]
      have h1 : getHeaderCI (headers ++ [(Header.HOST, x.host)])
          Header.CONNECTION = none := by
        rw [getHeaderCI_append_pair_ne headers Header.CONNECTION Header.HOST
          x.host hHC]
        exact hv
      have h2 : countHeaderCI (headers ++ [(Header.HOST, x.host)])
          Header.CONNECTION = 0 := by
        simp [countHeaderCI_append, countHeaderCI_pair, hHC,
          countHeaderCI_eq_zero headers Header.CONNECTION hv]
      obtain ⟨g1, g2⟩ := hpart _ h1 h2
      exact ⟨g2, g1⟩
    · simp only [hH, Option.isSome_some, if_true]
      obtain ⟨g1, g2⟩ := hpart headers hv
        (countHeaderCI_eq_zero headers Header.CONNECTION hv)
      exact ⟨g2, g1⟩
  · intro r hmem
    match ch with
    | none => simp [HttpRequestExecutor.executeOnce] at hmem
    | some h =>
      cases hgc : h.getConnection with
      | none => simp [HttpRequestExecutor.executeOnce, hgc] at hmem
      | some c =>
        obtain ⟨se, fe, he, hr, buf⟩ := envB
        cases se with
        | some code =>
            simpa [HttpRequestExecutor.executeOnce, hgc] using hmem
        | none =>
          cases fe with
          | some code =>
              simpa [HttpRequestExecutor.executeOnce, hgc] using hmem
          | none =>
            by_cases h1 : he.statusCode = 0 <;> by_cases h2 : he.ioStatus < 0 <;>
              simpa [HttpRequestExecutor.executeOnce, hgc, h1, h2] using hmem
  · intro r hmem
    match ch with
    | none => simp [HttpRequestExecutor.executeOnceAsync] at hmem
    | some h =>
      cases hgc : h.getConnection with
      | none => simp [HttpRequestExecutor.executeOnceAsync, hgc] at hmem
      | some c =>
        obtain ⟨se, fe, ho, buf⟩ := envA
        cases se with
        | some code =>
            simpa [HttpRequestExecutor.executeOnceAsync, hgc] using hmem
        | none =>
          cases fe with
          | some code =>
              simpa [HttpRequestExecutor.executeOnceAsync, hgc] using hmem
          | none =>
            cases ho with
            | error code =>
                simpa [HttpRequestExecutor.executeOnceAsync, hgc] using hmem
            | ok res =>
                simpa [HttpRequestExecutor.executeOnceAsync, hgc] using hmem

theorem default_header_injection_witness :
    getHeaderCI (buildOutgoingRequest sampleExecutor.host "GET" "/"
        [("host", "example.com")] none).headers Header.HOST
      = some "example.com" :=
  (default_header_injection sampleExecutor sampleBlockingEnv sampleAsyncEnv
    "GET" "/" [("host", "example.com")] none none).1 "example.com" (by decide)

end Oatpp
